import Mathlib

/-!
Verification of the offline-first synchronization engine of the `pwa-test`
repository (packages/frontend/src/services/syncService.ts together with the
data model in packages/frontend/src/types/index.ts and the background-sync
hook in the frontend hooks).

The TypeScript code is shallowly embedded: each function below is a direct
translation of the corresponding source function.  External effects are made
explicit:

* `localStorage` content is passed in and returned as explicit state
  (`SyncState` for the parsed view, `Option String` for the raw view used by
  the storage-read functions);
* the network is a parameter: the result of the snapshot fetch is an
  `Except FetchError (List TodoItem)` argument and the outcome of pushing one
  mutation is a `push : PendingSyncOperation → Bool` argument;
* `Date.now()` becomes an explicit `now : Nat` argument and
  `generateOperationId` becomes an explicit `genId : Nat → String` supply
  (the k-th id generated during a call is `genId k`);
* JavaScript truthiness tests that appear in branch conditions are modelled
  by `truthy` (for `boolean | undefined`) and `truthyTs` (for
  `number | undefined`, where the number 0 is falsy).
-/

/-- `syncStatus` values of a todo item (types/index.ts, `TodoItem`). -/
inductive SyncStatus where
  | synced
  | pending
  | conflict
  | error
deriving Repr, DecidableEq

/-- The synchronized entity (types/index.ts, `TodoItem`).  Optional fields of
the TypeScript interface become `Option`s. -/
structure TodoItem where
  id : Int
  title : String
  completed : Bool
  cached : Option Bool := none
  lastModified : Option Nat := none
  syncStatus : Option SyncStatus := none
deriving Repr, DecidableEq

/-- Operation kinds of a pending mutation (types/index.ts,
`SyncOperationType`). -/
inductive SyncOperationType where
  | create
  | update
  | delete
deriving Repr, DecidableEq

/-- A partial entity payload, `Partial<TodoItem>` in the source: every field
optional. -/
structure PartialTodoItem where
  id : Option Int := none
  title : Option String := none
  completed : Option Bool := none
  cached : Option Bool := none
  lastModified : Option Nat := none
  syncStatus : Option SyncStatus := none
deriving Repr, DecidableEq

/-- A queued, not-yet-acknowledged mutation (types/index.ts,
`PendingSyncOperation`). -/
structure PendingSyncOperation where
  id : String
  type : SyncOperationType
  entityType : String
  entityId : Int
  data : PartialTodoItem
  timestamp : Nat
  retryCount : Nat
deriving Repr, DecidableEq

/-- A recorded local/remote divergence (types/index.ts, `SyncConflict`). -/
structure SyncConflict where
  id : String
  entityType : String
  entityId : Int
  localData : TodoItem
  serverData : TodoItem
  timestamp : Nat
deriving Repr, DecidableEq

/-- The transient result of one sync pass (types/index.ts, `SyncResult`). -/
structure SyncResult where
  success : Bool
  syncedOperations : List PendingSyncOperation
  failedOperations : List PendingSyncOperation
  conflicts : List SyncConflict
  fetchedData : Option (List TodoItem) := none
  error : Option String := none
deriving Repr, DecidableEq

/-- The durable state owned by the sync service: the three localStorage
records (syncService.ts, `STORAGE_KEYS`), in parsed form. -/
structure SyncState where
  pending : List PendingSyncOperation
  conflicts : List SyncConflict
  lastSync : Option Nat
deriving Repr, DecidableEq

/-- JavaScript truthiness of a `boolean | undefined` value: `undefined` and
`false` are falsy. -/
def truthy : Option Bool → Bool
  | some b => b
  | none => false

/-- JavaScript truthiness of a `number | undefined` timestamp: `undefined`
and `0` are falsy. -/
def truthyTs : Option Nat → Bool
  | some n => n != 0
  | none => false

/-- Lookup in a `Map` built by inserting every list element keyed by its id
(`new Map(todos.map(todo => [todo.id, todo]))` followed by `.get(i)`):
a later element with the same id overwrites an earlier one, so this returns
the last matching element. -/
def mapGet : List TodoItem → Int → Option TodoItem
  | [], _ => none
  | t :: ts, i =>
    match mapGet ts i with
    | some r => some r
    | none => if t.id == i then some t else none

/-- One iteration of the `for (const serverTodo of serverTodos)` loop of
`reconcileData` (syncService.ts lines 137-172).  Returns the item pushed onto
`reconciled` and, when the conflict branch is taken, the
`(localData, serverData)` pair of the conflict record pushed onto
`conflicts`. -/
def reconcileItem (localTodos : List TodoItem) (serverTodo : TodoItem) :
    TodoItem × Option (TodoItem × TodoItem) :=
  match mapGet localTodos serverTodo.id with
  | none =>
    ({ serverTodo with syncStatus := some SyncStatus.synced }, none)
  | some localTodo =>
    if truthy localTodo.cached && truthyTs localTodo.lastModified &&
        truthyTs serverTodo.lastModified then
      if localTodo.lastModified.getD 0 > serverTodo.lastModified.getD 0 then
        ({ localTodo with syncStatus := some SyncStatus.conflict },
         some (localTodo, serverTodo))
      else
        ({ serverTodo with syncStatus := some SyncStatus.synced }, none)
    else if truthy localTodo.cached then
      ({ localTodo with syncStatus := some SyncStatus.pending }, none)
    else
      ({ serverTodo with syncStatus := some SyncStatus.synced }, none)

/-- The `(localData, serverData)` pairs of the conflict records emitted by
one `reconcileData` call, in emission order. -/
def conflictPairs (localTodos serverTodos : List TodoItem) :
    List (TodoItem × TodoItem) :=
  serverTodos.filterMap (fun s => (reconcileItem localTodos s).2)

/-- Build the conflict records from the emitted pairs: the k-th record gets
the k-th generated operation id (`generateOperationId()`), entity type
`'todo'`, the server item's id as `entityId`, and the detection timestamp
`Date.now()` (modelled as the single instant `now`). -/
def mkConflicts (genId : Nat → String) (now : Nat) :
    Nat → List (TodoItem × TodoItem) → List SyncConflict
  | _, [] => []
  | k, q :: rest =>
    { id := genId k, entityType := "todo", entityId := q.2.id,
      localData := q.1, serverData := q.2, timestamp := now } ::
      mkConflicts genId now (k + 1) rest

/-- The trailing loop of `reconcileData` (syncService.ts lines 174-179):
every local item whose id is absent from the server snapshot
(`!serverMap.has(localTodo.id)`) is retained and marked `pending`. -/
def localOnly (localTodos serverTodos : List TodoItem) : List TodoItem :=
  (localTodos.filter
      (fun l => !(serverTodos.any (fun s => s.id == l.id)))).map
    (fun l => { l with syncStatus := some SyncStatus.pending })

/-- `reconcileData(localTodos, serverTodos)` (syncService.ts lines 128-182):
merge the two snapshots and collect the conflict records. -/
def reconcileData (genId : Nat → String) (now : Nat)
    (localTodos serverTodos : List TodoItem) :
    List TodoItem × List SyncConflict :=
  (serverTodos.map (fun s => (reconcileItem localTodos s).1) ++
     localOnly localTodos serverTodos,
   mkConflicts genId now 0 (conflictPairs localTodos serverTodos))

/-- `getPendingOperations()` (syncService.ts lines 32-35): read the raw
localStorage value of the pending-sync key and evaluate
`stored ? JSON.parse(stored) : []`.  An absent key (`null`) and the empty
string are falsy and yield `[]`; otherwise `JSON.parse` runs with no
surrounding try/catch, so its outcome — success or thrown `SyntaxError` —
propagates to the caller.  `JSON.parse` is a platform builtin, passed in as
the `parse` argument. -/
def getPendingOperations
    (parse : String → Except String (List PendingSyncOperation)) :
    Option String → Except String (List PendingSyncOperation)
  | none => Except.ok []
  | some s => if s = "" then Except.ok [] else parse s

/-- `getSyncConflicts()` (syncService.ts lines 76-79): same shape as
`getPendingOperations`, over the conflicts key. -/
def getSyncConflicts
    (parse : String → Except String (List SyncConflict)) :
    Option String → Except String (List SyncConflict)
  | none => Except.ok []
  | some s => if s = "" then Except.ok [] else parse s

/-- A stand-in for the platform `JSON.parse` on the inputs this development
uses: the JSON text `"[]"` parses to the empty list, and a string that is not
a JSON text (such as `"oops"`) makes `JSON.parse` throw a `SyntaxError`. -/
def jsonParseStub (α : Type) : String → Except String (List α) :=
  fun s =>
    if s = "[]" then Except.ok []
    else Except.error "SyntaxError: Unexpected token"

/-- `addPendingOperation(type, entityId, data)` (syncService.ts lines 43-66)
as a pure function of the stored queue: build the new operation (fresh id
`opId`, creation time `now`, retry counter 0), drop every stored operation
with the same `(entityId, type)` pair, and append the new one. -/
def addPendingOperation (opId : String) (now : Nat)
    (ty : SyncOperationType) (entityId : Int) (data : PartialTodoItem)
    (operations : List PendingSyncOperation) : List PendingSyncOperation :=
  let operation : PendingSyncOperation :=
    { id := opId, type := ty, entityType := "todo", entityId := entityId,
      data := data, timestamp := now, retryCount := 0 }
  let filteredOps := operations.filter
    (fun op => !(op.entityId == entityId && op.type == ty))
  filteredOps ++ [operation]

/-- Fold a sequence of enqueue requests `(opId, now, type, entityId, data)`
over the stored queue, one `addPendingOperation` call per request. -/
def enqueueAll
    (reqs : List (String × Nat × SyncOperationType × Int × PartialTodoItem))
    (operations : List PendingSyncOperation) : List PendingSyncOperation :=
  reqs.foldl
    (fun acc r => addPendingOperation r.1 r.2.1 r.2.2.1 r.2.2.2.1 r.2.2.2.2 acc)
    operations

/-- The queue-level invariant of the spec: at most one pending mutation per
`(entityId, operation kind)` pair. -/
def atMostOnePerPair (operations : List PendingSyncOperation) : Prop :=
  ∀ (e : Int) (ty : SyncOperationType),
    (operations.filter (fun op => op.entityId == e && op.type == ty)).length ≤ 1

/-- The failure wrapper of `fetchServerData()` (syncService.ts lines 87-96):
an `ApiError` is re-thrown as
`Failed to fetch server data: ${error.statusText}`; any other error is
re-thrown unchanged.  `performSync`'s catch block stores the resulting
`error.message`, which is what each constructor carries here. -/
inductive FetchError where
  | apiError (status : Nat) (statusText : String)
  | plainError (msg : String)
deriving Repr, DecidableEq

/-- The message of the error thrown out of `fetchServerData()`. -/
def fetchErrorMessage : FetchError → String
  | FetchError.apiError _ st => "Failed to fetch server data: " ++ st
  | FetchError.plainError m => m

/-- `fetchServerData()` (syncService.ts lines 87-96) over the network outcome
of `todoApi.getTodos()`. -/
def fetchServerData :
    Except FetchError (List TodoItem) → Except String (List TodoItem)
  | Except.ok todos => Except.ok todos
  | Except.error e => Except.error (fetchErrorMessage e)

/-- The `for (const operation of pendingOps)` loop of `performSync`
(syncService.ts lines 217-229).  Each operation is pushed once, in order;
`push op = true` models a successful `pushOperation` call.  Returns
`(syncedOps, failedOps, result.failedOperations)`: the successfully pushed
operations, the failed operations whose incremented retry counter is still
below 3, and all failed operations with incremented counters. -/
def pushLoop (push : PendingSyncOperation → Bool) :
    List PendingSyncOperation →
    List PendingSyncOperation × List PendingSyncOperation ×
      List PendingSyncOperation
  | [] => ([], [], [])
  | op :: rest =>
    let r := pushLoop push rest
    if push op then (op :: r.1, r.2.1, r.2.2)
    else
      let op' := { op with retryCount := op.retryCount + 1 }
      if op'.retryCount < 3 then (r.1, op' :: r.2.1, op' :: r.2.2)
      else (r.1, r.2.1, op' :: r.2.2)

/-- `performSync(localTodos)` (syncService.ts lines 185-249).  The fetch
outcome and the per-operation push outcome are parameters; the stored state
is threaded explicitly.  Returns the `SyncResult`, the updated stored state,
and the list of operations on which a remote push was attempted (the trace
of `pushOperation` calls). -/
def performSync (genId : Nat → String) (now : Nat)
    (remote : Except FetchError (List TodoItem))
    (push : PendingSyncOperation → Bool)
    (localTodos : List TodoItem) (st : SyncState) :
    SyncResult × SyncState × List PendingSyncOperation :=
  match fetchServerData remote with
  | Except.error msg =>
    ({ success := false, syncedOperations := [], failedOperations := [],
       conflicts := [], fetchedData := none, error := some msg }, st, [])
  | Except.ok serverTodos =>
    let rc := reconcileData genId now localTodos serverTodos
    let storedConflicts := if rc.2.isEmpty then st.conflicts
                           else st.conflicts ++ rc.2
    let pendingOps := st.pending
    let pl := pushLoop push pendingOps
    let syncedIds := pl.1.map PendingSyncOperation.id
    let afterRemove := pendingOps.filter
      (fun op => !(syncedIds.contains op.id))
    let finalPending := if pl.2.1.isEmpty then afterRemove else pl.2.1
    ({ success := true, syncedOperations := pl.1, failedOperations := pl.2.2,
       conflicts := rc.2, fetchedData := some rc.1, error := none },
     { pending := finalPending, conflicts := storedConflicts,
       lastSync := some now }, pendingOps)

/-- The post-processing the background-sync hook applies to a successful
pass (`performActualSync` in the frontend hooks, lines 59-67): when the
result is a success and carries reconciled data, every reconciled item is
re-marked `synced` before the application's todo list is replaced. -/
def performActualSyncUpdate (result : SyncResult) : Option (List TodoItem) :=
  if result.success then
    result.fetchedData.map
      (fun todos => todos.map
        (fun t => { t with syncStatus := some SyncStatus.synced }))
  else none

/-! ### Concrete fixtures used by counterexamples and witnesses -/

def itemL100 : TodoItem :=
  { id := 1, title := "local", completed := false, cached := some true,
    lastModified := some 100, syncStatus := none }

def itemR50 : TodoItem :=
  { id := 1, title := "remote", completed := true, cached := none,
    lastModified := some 50, syncStatus := none }

def itemL5 : TodoItem :=
  { id := 2, title := "local", completed := false, cached := some true,
    lastModified := some 5, syncStatus := none }

def itemR0 : TodoItem :=
  { id := 2, title := "remote", completed := false, cached := none,
    lastModified := some 0, syncStatus := none }

def itemL50 : TodoItem :=
  { id := 3, title := "local", completed := false, cached := some true,
    lastModified := some 50, syncStatus := none }

def itemR100 : TodoItem :=
  { id := 3, title := "remote", completed := true, cached := none,
    lastModified := some 100, syncStatus := none }

def itemLz0 : TodoItem :=
  { id := 4, title := "local", completed := false, cached := some true,
    lastModified := some 0, syncStatus := none }

def itemRz7 : TodoItem :=
  { id := 4, title := "remote", completed := true, cached := none,
    lastModified := some 7, syncStatus := none }

def itemSrvCached : TodoItem :=
  { id := 6, title := "server", completed := false, cached := some true,
    lastModified := none, syncStatus := none }

def opCreateMilk : PendingSyncOperation :=
  { id := "1700000000000-abc", type := SyncOperationType.create,
    entityType := "todo", entityId := 1001,
    data := { title := some "buy milk", completed := some false },
    timestamp := 3, retryCount := 0 }

def milkTodo : TodoItem :=
  { id := 1001, title := "buy milk", completed := false, cached := some true,
    lastModified := none, syncStatus := some SyncStatus.pending }

def stMilk : SyncState :=
  { pending := [opCreateMilk], conflicts := [], lastSync := none }

def opFresh : PendingSyncOperation :=
  { id := "a", type := SyncOperationType.update, entityType := "todo",
    entityId := 7, data := {}, timestamp := 0, retryCount := 0 }

def opCeil : PendingSyncOperation :=
  { id := "b", type := SyncOperationType.update, entityType := "todo",
    entityId := 8, data := {}, timestamp := 0, retryCount := 2 }

def stFresh : SyncState :=
  { pending := [opFresh], conflicts := [], lastSync := none }

def stCeil : SyncState :=
  { pending := [opCeil], conflicts := [], lastSync := none }

/-! ### Basic lemmas about the embedding -/

theorem mapGet_eq_none {ts : List TodoItem} {i : Int}
    (h : ∀ t ∈ ts, t.id ≠ i) : mapGet ts i = none := by
  induction ts with
  | nil => rfl
  | cons t ts ih =>
    have ht : t.id ≠ i := h t (List.mem_cons_self t ts)
    have : mapGet ts i = none := ih (fun x hx => h x (List.mem_cons_of_mem t hx))
    simp [mapGet, this, ht]

theorem mapGet_some_id {ts : List TodoItem} {i : Int} {l : TodoItem}
    (h : mapGet ts i = some l) : l.id = i := by
  induction ts with
  | nil => simp [mapGet] at h
  | cons t ts ih =>
    rw [mapGet] at h
    cases hm : mapGet ts i with
    | some r => rw [hm] at h; exact ih (hm.trans h)
    | none =>
      rw [hm] at h
      by_cases hb : t.id == i
      · simp [hb] at h
        subst h
        exact by simpa using hb
      · simp [hb] at h

theorem mapGet_map {f : TodoItem → TodoItem}
    (hf : ∀ t, (f t).id = t.id) {R : List TodoItem} {s : TodoItem}
    (hnd : (R.map TodoItem.id).Nodup) (hs : s ∈ R) :
    mapGet (R.map f) s.id = some (f s) := by
  induction R with
  | nil => cases hs
  | cons t ts ih =>
    have hnd' : t.id ∉ ts.map TodoItem.id ∧ (ts.map TodoItem.id).Nodup := by
      simpa [List.nodup_cons] using hnd
    rw [List.map_cons]
    rcases List.mem_cons.1 hs with rfl | hmem
    · have hnone : mapGet (ts.map f) s.id = none := by
        refine mapGet_eq_none ?_
        intro x hx
        rcases List.mem_map.1 hx with ⟨y, hy, rfl⟩
        rw [hf y]
        intro hcontra
        exact hnd'.1 (hcontra ▸ List.mem_map_of_mem TodoItem.id hy)
      simp [mapGet, hnone, hf s]
    · have := ih hnd'.2 hmem
      simp [mapGet, this]

theorem reconcileItem_fst_id (L : List TodoItem) (s : TodoItem) :
    (reconcileItem L s).1.id = s.id := by
  rw [reconcileItem]
  cases h : mapGet L s.id with
  | none => rfl
  | some l =>
    have hid := mapGet_some_id h
    dsimp only
    split_ifs <;> simp [hid]

theorem reconcileItem_snd_some {L : List TodoItem} {s : TodoItem}
    {q : TodoItem × TodoItem} (h : (reconcileItem L s).2 = some q) :
    mapGet L s.id = some q.1 ∧ q.2 = s ∧
    truthy q.1.cached = true ∧ truthyTs q.1.lastModified = true ∧
    truthyTs s.lastModified = true ∧
    s.lastModified.getD 0 < q.1.lastModified.getD 0 ∧
    (reconcileItem L s).1 =
      { q.1 with syncStatus := some SyncStatus.conflict } := by
  rw [reconcileItem] at h ⊢
  cases hm : mapGet L s.id with
  | none => rw [hm] at h; simp at h
  | some l =>
    rw [hm] at h
    dsimp only at h ⊢
    by_cases h1 :
        (truthy l.cached && truthyTs l.lastModified && truthyTs s.lastModified)
          = true
    · by_cases h2 : l.lastModified.getD 0 > s.lastModified.getD 0
      · rw [if_pos h1, if_pos h2] at h
        dsimp at h
        injection h with h'
        subst h'
        have h1' := h1
        simp only [Bool.and_eq_true] at h1'
        obtain ⟨⟨h1b, h1d⟩, h1c⟩ := h1'
        refine ⟨rfl, rfl, h1b, h1d, h1c, h2, ?_⟩
        rw [if_pos h1, if_pos h2]
      · rw [if_pos h1, if_neg h2] at h
        simp at h
    · rw [if_neg h1] at h
      by_cases h3 : truthy l.cached = true
      · rw [if_pos h3] at h; simp at h
      · rw [if_neg h3] at h; simp at h

theorem mkConflicts_length (g : Nat → String) (n : Nat) :
    ∀ (k : Nat) (ps : List (TodoItem × TodoItem)),
      (mkConflicts g n k ps).length = ps.length := by
  intro k ps
  induction ps generalizing k with
  | nil => rfl
  | cons q rest ih => simp [mkConflicts, ih]

theorem mkConflicts_map_entityId (g : Nat → String) (n : Nat) :
    ∀ (k : Nat) (ps : List (TodoItem × TodoItem)),
      (mkConflicts g n k ps).map SyncConflict.entityId =
        ps.map (fun q => q.2.id) := by
  intro k ps
  induction ps generalizing k with
  | nil => rfl
  | cons q rest ih => simp [mkConflicts, ih]

theorem mkConflicts_map_serverData (g : Nat → String) (n : Nat) :
    ∀ (k : Nat) (ps : List (TodoItem × TodoItem)),
      (mkConflicts g n k ps).map SyncConflict.serverData = ps.map Prod.snd := by
  intro k ps
  induction ps generalizing k with
  | nil => rfl
  | cons q rest ih => simp [mkConflicts, ih]

theorem mem_mkConflicts {g : Nat → String} {n : Nat} :
    ∀ {k : Nat} {ps : List (TodoItem × TodoItem)} {c : SyncConflict},
      c ∈ mkConflicts g n k ps →
      ∃ q ∈ ps, c.entityId = q.2.id ∧ c.localData = q.1 ∧ c.serverData = q.2 := by
  intro k ps
  induction ps generalizing k with
  | nil => intro c hc; cases hc
  | cons q rest ih =>
    intro c hc
    rcases List.mem_cons.1 hc with rfl | hc
    · exact ⟨q, List.mem_cons_self q rest, rfl, rfl, rfl⟩
    · rcases ih hc with ⟨q', hq', h1, h2, h3⟩
      exact ⟨q', List.mem_cons_of_mem q hq', h1, h2, h3⟩

theorem mkConflicts_countP (g : Nat → String) (n : Nat)
    (p : TodoItem → TodoItem → Bool) :
    ∀ (k : Nat) (ps : List (TodoItem × TodoItem)),
      (mkConflicts g n k ps).countP (fun c => p c.localData c.serverData) =
        ps.countP (fun q => p q.1 q.2) := by
  intro k ps
  induction ps generalizing k with
  | nil => rfl
  | cons q rest ih => simp [mkConflicts, List.countP_cons, ih]

theorem mem_conflictPairs {L R : List TodoItem} {q : TodoItem × TodoItem}
    (h : q ∈ conflictPairs L R) :
    ∃ s ∈ R, (reconcileItem L s).2 = some q := by
  rcases List.mem_filterMap.1 h with ⟨s, hs, heq⟩
  exact ⟨s, hs, heq⟩

/-- Every conflict record of a `reconcileData` call comes from a server item
that took the conflict branch; its `entityId` is that server item's id. -/
theorem conflicts_inversion {g : Nat → String} {n : Nat}
    {L R : List TodoItem} {c : SyncConflict}
    (h : c ∈ (reconcileData g n L R).2) :
    ∃ s ∈ R, (reconcileItem L s).2 = some (c.localData, c.serverData) ∧
      c.entityId = s.id ∧ c.serverData = s := by
  rcases mem_mkConflicts h with ⟨q, hq, hid, hld, hsd⟩
  rcases mem_conflictPairs hq with ⟨s, hs, heq⟩
  have hq2 : q.2 = s := (reconcileItem_snd_some heq).2.1
  refine ⟨s, hs, ?_, by rw [hid, hq2], by rw [hsd, hq2]⟩
  have : q = (c.localData, c.serverData) := by
    rw [Prod.ext_iff]; exact ⟨hld.symm, hsd.symm⟩
  rw [← this]; exact heq

theorem pushLoop_synced (push : PendingSyncOperation → Bool)
    (l : List PendingSyncOperation) :
    (pushLoop push l).1 = l.filter (fun op => push op) := by
  induction l with
  | nil => rfl
  | cons op rest ih =>
    by_cases hp : push op = true
    · simp [pushLoop, hp, ih]
    · have hp' : push op = false := by simpa using hp
      by_cases hr : op.retryCount + 1 < 3 <;>
        simp [pushLoop, hp', hr, ih]

theorem pushLoop_failedAll (push : PendingSyncOperation → Bool)
    (l : List PendingSyncOperation) :
    (pushLoop push l).2.2 =
      (l.filter (fun op => !(push op))).map
        (fun op => { op with retryCount := op.retryCount + 1 }) := by
  induction l with
  | nil => rfl
  | cons op rest ih =>
    by_cases hp : push op = true
    · simp [pushLoop, hp, ih]
    · have hp' : push op = false := by simpa using hp
      by_cases hr : op.retryCount + 1 < 3 <;>
        simp [pushLoop, hp', hr, ih]

theorem pushLoop_failedBelow (push : PendingSyncOperation → Bool)
    (l : List PendingSyncOperation) :
    (pushLoop push l).2.1 =
      ((pushLoop push l).2.2).filter (fun op => decide (op.retryCount < 3)) := by
  induction l with
  | nil => rfl
  | cons op rest ih =>
    by_cases hp : push op = true
    · simp [pushLoop, hp, ih]
    · have hp' : push op = false := by simpa using hp
      by_cases hr : op.retryCount + 1 < 3 <;>
        simp [pushLoop, hp', hr, ih]

/-- Computation of `reconcileItem` in the strictly-greater conflict branch:
the local item is cached, both timestamps are truthy (present and nonzero),
and the local one is strictly greater. -/
theorem reconcileItem_conflict_case {L : List TodoItem} {r l : TodoItem}
    {a b : Nat} (hl : mapGet L r.id = some l) (hc : l.cached = some true)
    (hla : l.lastModified = some a) (hrb : r.lastModified = some b)
    (ha : a ≠ 0) (hb : b ≠ 0) (hab : b < a) :
    reconcileItem L r =
      ({ l with syncStatus := some SyncStatus.conflict }, some (l, r)) := by
  have h1 : (truthy l.cached && truthyTs l.lastModified &&
      truthyTs r.lastModified) = true := by
    simp [truthy, truthyTs, hc, hla, hrb, ha, hb]
  have h2 : l.lastModified.getD 0 > r.lastModified.getD 0 := by
    rw [hla, hrb]; exact hab
  rw [reconcileItem, hl]
  dsimp only
  rw [if_pos h1, if_pos h2]

/-- Computation of `reconcileItem` in the not-strictly-greater branch: the
local item is cached, both timestamps are truthy, local is not greater, so
the server item is adopted (remote wins, including ties). -/
theorem reconcileItem_tie_case {L : List TodoItem} {r l : TodoItem}
    {a b : Nat} (hl : mapGet L r.id = some l) (hc : l.cached = some true)
    (hla : l.lastModified = some a) (hrb : r.lastModified = some b)
    (ha : a ≠ 0) (hb : b ≠ 0) (hab : a ≤ b) :
    reconcileItem L r =
      ({ r with syncStatus := some SyncStatus.synced }, none) := by
  have h1 : (truthy l.cached && truthyTs l.lastModified &&
      truthyTs r.lastModified) = true := by
    simp [truthy, truthyTs, hc, hla, hrb, ha, hb]
  have h2 : ¬(l.lastModified.getD 0 > r.lastModified.getD 0) := by
    rw [hla, hrb]; exact not_lt.2 hab
  rw [reconcileItem, hl]
  dsimp only
  rw [if_pos h1, if_neg h2]

/-- Computation of `reconcileItem` in the incomparable-timestamp branch: the
local item is cached but the conflict condition is falsy, so the local item
is kept and marked `pending`. -/
theorem reconcileItem_pending_case {L : List TodoItem} {r l : TodoItem}
    (hl : mapGet L r.id = some l)
    (hcond : (truthy l.cached && truthyTs l.lastModified &&
      truthyTs r.lastModified) = false)
    (hcached : truthy l.cached = true) :
    reconcileItem L r =
      ({ l with syncStatus := some SyncStatus.pending }, none) := by
  rw [reconcileItem, hl]
  dsimp only
  rw [if_neg (by simp [hcond]), if_pos hcached]

/-- The merged item produced for a server item is the server item marked
`synced`, or its local counterpart marked `conflict` or `pending`. -/
theorem reconcileItem_fst_cases (L : List TodoItem) (s : TodoItem) :
    (reconcileItem L s).1 = { s with syncStatus := some SyncStatus.synced } ∨
    ∃ l, mapGet L s.id = some l ∧
      ((reconcileItem L s).1 =
          { l with syncStatus := some SyncStatus.conflict } ∨
       (reconcileItem L s).1 =
          { l with syncStatus := some SyncStatus.pending }) := by
  rw [reconcileItem]
  cases hm : mapGet L s.id with
  | none => exact Or.inl rfl
  | some l =>
    dsimp only
    split_ifs with h1 h2 h3
    · exact Or.inr ⟨l, rfl, Or.inl rfl⟩
    · exact Or.inl rfl
    · exact Or.inr ⟨l, rfl, Or.inr rfl⟩
    · exact Or.inl rfl

theorem conflictPairs_cons_some {L : List TodoItem} {s : TodoItem}
    {R' : List TodoItem} {q : TodoItem × TodoItem}
    (h : (reconcileItem L s).2 = some q) :
    conflictPairs L (s :: R') = q :: conflictPairs L R' := by
  simp [conflictPairs, List.filterMap_cons, h]

theorem conflictPairs_cons_none {L : List TodoItem} {s : TodoItem}
    {R' : List TodoItem} (h : (reconcileItem L s).2 = none) :
    conflictPairs L (s :: R') = conflictPairs L R' := by
  simp [conflictPairs, List.filterMap_cons, h]

/-- No conflict pair can target an id that no server item carries. -/
theorem conflictPairs_countP_zero {L R : List TodoItem} {l r : TodoItem}
    (h : ∀ s ∈ R, s.id ≠ r.id) :
    (conflictPairs L R).countP (fun q => q.1 == l && q.2 == r) = 0 := by
  rw [List.countP_eq_zero]
  intro q hq hp
  rcases mem_conflictPairs hq with ⟨s, hs, heq⟩
  have hq2 : q.2 = s := (reconcileItem_snd_some heq).2.1
  simp only [Bool.and_eq_true, beq_iff_eq] at hp
  exact h s hs (by rw [← hq2, hp.2])

/-- With pairwise-distinct server ids, the server item `r` whose
reconciliation emits the pair `(l, r)` accounts for exactly one conflict
pair with that local/server data. -/
theorem conflictPairs_countP_one {L : List TodoItem} {l r : TodoItem} :
    ∀ {R : List TodoItem}, (R.map TodoItem.id).Nodup → r ∈ R →
    (reconcileItem L r).2 = some (l, r) →
    (conflictPairs L R).countP (fun q => q.1 == l && q.2 == r) = 1 := by
  intro R
  induction R with
  | nil => intro _ hr; cases hr
  | cons s R' ih =>
    intro hnd hr hitem
    have hnd' : s.id ∉ R'.map TodoItem.id ∧ (R'.map TodoItem.id).Nodup := by
      simpa [List.nodup_cons] using hnd
    rcases List.mem_cons.1 hr with rfl | hmem
    · have hzero :
          (conflictPairs L R').countP (fun q => q.1 == l && q.2 == r) = 0 := by
        refine conflictPairs_countP_zero ?_
        intro s' hs' hEq
        exact hnd'.1 (hEq ▸ List.mem_map_of_mem TodoItem.id hs')
      rw [conflictPairs_cons_some hitem, List.countP_cons]
      simp [hzero]
    · have hsr : s.id ≠ r.id := by
        intro hEq
        exact hnd'.1 (hEq ▸ List.mem_map_of_mem TodoItem.id hmem)
      cases hcs : (reconcileItem L s).2 with
      | none => rw [conflictPairs_cons_none hcs]; exact ih hnd'.2 hmem hitem
      | some q =>
        have hq2 : q.2 = s := (reconcileItem_snd_some hcs).2.1
        have hqr : (q.2 == r) = false := by
          refine beq_eq_false_iff_ne.2 ?_
          rw [hq2]
          intro hEq
          exact hsr (by rw [hEq])
        rw [conflictPairs_cons_some hcs, List.countP_cons]
        simp [hqr, ih hnd'.2 hmem hitem]

/-! ### Claims C1, C7, C10, C6: the reconciliation branches -/

/-- Claim C1, as amended: over snapshots whose remote ids are pairwise
distinct, for an id shared by a cached local item `l` and a remote item `r`
whose `lastModified` timestamps are both present and nonzero (truthy) with
the local one strictly greater, reconciliation keeps `l` marked `conflict`
and emits exactly one conflict record with `localData = l` and
`serverData = r`. -/
theorem reconcile_local_newer_keeps_local_conflict
    (g : Nat → String) (n : Nat) (L R : List TodoItem) (l r : TodoItem)
    (a b : Nat) (hnd : (R.map TodoItem.id).Nodup) (hr : r ∈ R)
    (hl : mapGet L r.id = some l) (hc : l.cached = some true)
    (hla : l.lastModified = some a) (hrb : r.lastModified = some b)
    (ha : a ≠ 0) (hb : b ≠ 0) (hab : b < a) :
    { l with syncStatus := some SyncStatus.conflict } ∈
      (reconcileData g n L R).1 ∧
    (reconcileData g n L R).2.countP
        (fun c => c.localData == l && c.serverData == r) = 1 := by
  have hitem := reconcileItem_conflict_case hl hc hla hrb ha hb hab
  constructor
  · apply List.mem_append_left
    refine List.mem_map.2 ⟨r, hr, ?_⟩
    rw [hitem]
  · have hcount := mkConflicts_countP g n (fun x y => x == l && y == r) 0
      (conflictPairs L R)
    rw [reconcileData]
    dsimp only
    rw [hcount]
    exact conflictPairs_countP_one hnd hr (by rw [hitem])

/-- Claim C1, witness: the spec's own example (`lastModified` 100 vs 50). -/
theorem reconcile_local_newer_witness :
    { itemL100 with syncStatus := some SyncStatus.conflict } ∈
      (reconcileData (fun _ => "c") 7 [itemL100] [itemR50]).1 ∧
    (reconcileData (fun _ => "c") 7 [itemL100] [itemR50]).2.countP
        (fun c => c.localData == itemL100 && c.serverData == itemR50) = 1 :=
  reconcile_local_newer_keeps_local_conflict (fun _ => "c") 7
    [itemL100] [itemR50] itemL100 itemR50 100 50
    (by decide) (by decide) (by decide) rfl rfl rfl
    (by decide) (by decide) (by decide)

/-- Claim C1, counterexample to the claim as stated: both timestamps are
present (`some 5` and `some 0`) and the local one is strictly greater, yet
because the remote timestamp 0 is falsy the conflict branch is skipped: the
local item is kept as `pending` and no conflict record is produced. -/
theorem reconcile_local_newer_zero_remote_ts_cex :
    itemL5.cached = some true ∧ itemL5.lastModified = some 5 ∧
    itemR0.lastModified = some 0 ∧ 0 < 5 ∧
    (reconcileData (fun _ => "c") 7 [itemL5] [itemR0]).2 = [] ∧
    { itemL5 with syncStatus := some SyncStatus.conflict } ∉
      (reconcileData (fun _ => "c") 7 [itemL5] [itemR0]).1 ∧
    (reconcileData (fun _ => "c") 7 [itemL5] [itemR0]).1 =
      [{ itemL5 with syncStatus := some SyncStatus.pending }] := by
  decide

/-- Claim C7, as amended: over snapshots whose remote ids are pairwise
distinct, for an id shared by a cached local item `l` and a remote item `r`
whose timestamps are both present and nonzero (truthy) with the local one
not strictly greater (ties included), reconciliation adopts `r` marked
`synced` and emits no conflict record for that id. -/
theorem reconcile_remote_wins_on_ties
    (g : Nat → String) (n : Nat) (L R : List TodoItem) (l r : TodoItem)
    (a b : Nat) (hnd : (R.map TodoItem.id).Nodup) (hr : r ∈ R)
    (hl : mapGet L r.id = some l) (hc : l.cached = some true)
    (hla : l.lastModified = some a) (hrb : r.lastModified = some b)
    (ha : a ≠ 0) (hb : b ≠ 0) (hab : a ≤ b) :
    { r with syncStatus := some SyncStatus.synced } ∈
      (reconcileData g n L R).1 ∧
    ∀ c ∈ (reconcileData g n L R).2, c.entityId ≠ r.id := by
  have hitem := reconcileItem_tie_case hl hc hla hrb ha hb hab
  constructor
  · apply List.mem_append_left
    refine List.mem_map.2 ⟨r, hr, ?_⟩
    rw [hitem]
  · intro c hcmem hEq
    rcases conflicts_inversion hcmem with ⟨s, hs, hsnd, hid, _⟩
    have hsr : s = r :=
      List.inj_on_of_nodup_map hnd hs hr (by rw [← hid, hEq])
    rw [hsr, hitem] at hsnd
    cases hsnd

/-- Claim C7, witness: the spec's own example (`lastModified` 50 vs 100). -/
theorem reconcile_remote_wins_witness :
    { itemR100 with syncStatus := some SyncStatus.synced } ∈
      (reconcileData (fun _ => "c") 7 [itemL50] [itemR100]).1 ∧
    ∀ c ∈ (reconcileData (fun _ => "c") 7 [itemL50] [itemR100]).2,
      c.entityId ≠ itemR100.id :=
  reconcile_remote_wins_on_ties (fun _ => "c") 7 [itemL50] [itemR100]
    itemL50 itemR100 50 100 (by decide) (by decide) (by decide) rfl rfl rfl
    (by decide) (by decide) (by decide)

/-- Claim C7, counterexample to the claim as stated: both timestamps are
present (`some 0` locally, `some 7` remotely) and the local one is not
strictly greater, yet because the local timestamp 0 is falsy the comparison
branch is skipped: the local item is kept as `pending` instead of the remote
item being adopted as `synced`. -/
theorem reconcile_remote_wins_zero_local_ts_cex :
    itemLz0.cached = some true ∧ itemLz0.lastModified = some 0 ∧
    itemRz7.lastModified = some 7 ∧ (0 : Nat) ≤ 7 ∧
    { itemRz7 with syncStatus := some SyncStatus.synced } ∉
      (reconcileData (fun _ => "c") 7 [itemLz0] [itemRz7]).1 ∧
    (reconcileData (fun _ => "c") 7 [itemLz0] [itemRz7]).1 =
      [{ itemLz0 with syncStatus := some SyncStatus.pending }] := by
  decide

/-- Claim C10: a cached local item whose `lastModified` is the present but
falsy timestamp 0 skips the timestamp comparison even when the remote
timestamp is present: the local item is kept marked `pending` and no
conflict record is emitted for that id. -/
theorem reconcile_zero_local_ts_pending
    (g : Nat → String) (n : Nat) (L R : List TodoItem) (l r : TodoItem)
    (m : Nat) (hr : r ∈ R) (hl : mapGet L r.id = some l)
    (hc : l.cached = some true) (hla : l.lastModified = some 0)
    (_hrm : r.lastModified = some m) :
    { l with syncStatus := some SyncStatus.pending } ∈
      (reconcileData g n L R).1 ∧
    ∀ c ∈ (reconcileData g n L R).2, c.entityId ≠ r.id := by
  have hcond : (truthy l.cached && truthyTs l.lastModified &&
      truthyTs r.lastModified) = false := by
    simp [truthyTs, hla]
  have hitem := reconcileItem_pending_case hl hcond (by simp [truthy, hc])
  constructor
  · apply List.mem_append_left
    refine List.mem_map.2 ⟨r, hr, ?_⟩
    rw [hitem]
  · intro c hcmem hEq
    rcases conflicts_inversion hcmem with ⟨s, hs, hsnd, hid, _⟩
    have hinv := reconcileItem_snd_some hsnd
    have hgl : mapGet L s.id = some l := by
      rw [show s.id = r.id from by rw [← hid, hEq]]
      exact hl
    have hcl : c.localData = l := by
      have := hinv.1
      rw [hgl] at this
      exact (Option.some.inj this).symm
    have hts : truthyTs c.localData.lastModified = true := hinv.2.2.2.1
    rw [hcl, hla] at hts
    simp [truthyTs] at hts

/-- Claim C10, witness: local timestamp 0 against remote timestamp 7. -/
theorem reconcile_zero_local_ts_witness :
    { itemLz0 with syncStatus := some SyncStatus.pending } ∈
      (reconcileData (fun _ => "c") 7 [itemLz0] [itemRz7]).1 ∧
    ∀ c ∈ (reconcileData (fun _ => "c") 7 [itemLz0] [itemRz7]).2,
      c.entityId ≠ itemRz7.id :=
  reconcile_zero_local_ts_pending (fun _ => "c") 7 [itemLz0] [itemRz7]
    itemLz0 itemRz7 7 (by decide) (by decide) rfl rfl rfl

/-- Claim C6, as amended: whenever no remote item carries a truthy `cached`
flag, every item of the merged output whose `syncStatus` is `synced` has a
falsy `cached` flag (absent or `false`).  (Synced items copy the remote item
verbatim, so a remote `cached = true` flag would survive — see the
counterexample.) -/
theorem reconcile_synced_items_not_cached
    (g : Nat → String) (n : Nat) (L R : List TodoItem)
    (hc : ∀ s ∈ R, truthy s.cached = false) :
    ∀ t ∈ (reconcileData g n L R).1,
      t.syncStatus = some SyncStatus.synced → truthy t.cached = false := by
  intro t ht hsy
  rcases List.mem_append.1 ht with hts | htl
  · rcases List.mem_map.1 hts with ⟨s, hs, rfl⟩
    rcases reconcileItem_fst_cases L s with hcase | ⟨l, _, hcase | hcase⟩
    · rw [hcase]
      exact hc s hs
    · rw [hcase] at hsy
      simp at hsy
    · rw [hcase] at hsy
      simp at hsy
  · rcases List.mem_map.1 htl with ⟨x, _, rfl⟩
    simp at hsy

/-- Claim C6, witness: the remote-only item `itemR50` (falsy `cached`) comes
out `synced`, and the amended claim applied to it shows its merged copy is
not cached. -/
theorem reconcile_synced_items_witness :
    truthy ({ itemR50 with syncStatus := some SyncStatus.synced } :
      TodoItem).cached = false :=
  reconcile_synced_items_not_cached (fun _ => "c") 7 [] [itemR50] (by decide)
    { itemR50 with syncStatus := some SyncStatus.synced }
    (by decide) (by decide)

/-- Claim C6, counterexample to the claim as stated: a remote item carrying
`cached = true` and no local counterpart is adopted verbatim with status
`synced`, so the merged output contains a synced item whose `cached` is
`true`, not `false`. -/
theorem reconcile_synced_cached_true_cex :
    (reconcileData (fun _ => "c") 7 [] [itemSrvCached]).1 =
      [{ itemSrvCached with syncStatus := some SyncStatus.synced }] ∧
    ({ itemSrvCached with syncStatus := some SyncStatus.synced }).syncStatus =
      some SyncStatus.synced ∧
    ({ itemSrvCached with syncStatus := some SyncStatus.synced }).cached =
      some true := by
  decide

/-! ### Claim C2: fetch failure is fail-closed -/

/-- Claim C2: when the remote snapshot fetch fails, `performSync` returns
`success = false` with the failure's message as its error, attempts no push,
and leaves the entire stored state (pending queue, conflicts, last-sync
timestamp) unchanged.  The message non-emptiness hypothesis marks the model
boundary: every failure message the repository itself constructs (the
`Failed to fetch server data:` wrapper, the timeout message, the retry
helper's `Unknown error` fallback) is non-empty; an empty message could only
come from the platform `fetch` rejecting with an empty-message error. -/
theorem performSync_fetch_failure_fail_closed
    (g : Nat → String) (now : Nat) (f : FetchError)
    (push : PendingSyncOperation → Bool) (localTodos : List TodoItem)
    (st : SyncState) (hmsg : fetchErrorMessage f ≠ "") :
    performSync g now (Except.error f) push localTodos st =
      ({ success := false, syncedOperations := [], failedOperations := [],
         conflicts := [], fetchedData := none,
         error := some (fetchErrorMessage f) }, st, []) ∧
    fetchErrorMessage f ≠ "" :=
  ⟨rfl, hmsg⟩

/-- Claim C2, witness: a 500 response aborts the pass and changes nothing. -/
theorem performSync_fetch_failure_witness :
    performSync (fun _ => "c") 5
        (Except.error (FetchError.apiError 500 "Internal Server Error"))
        (fun _ => true) [milkTodo] stMilk =
      ({ success := false, syncedOperations := [], failedOperations := [],
         conflicts := [], fetchedData := none,
         error := some "Failed to fetch server data: Internal Server Error" },
       stMilk, []) ∧
    fetchErrorMessage (FetchError.apiError 500 "Internal Server Error") ≠ "" :=
  performSync_fetch_failure_fail_closed (fun _ => "c") 5
    (FetchError.apiError 500 "Internal Server Error") (fun _ => true)
    [milkTodo] stMilk (by decide)

/-! ### Claim C5: retry bookkeeping for failed pushes -/

/-- Claim C5, as amended: a pending mutation whose push fails is reported in
`failedOperations` with its retry counter incremented.  If the incremented
counter is still below the ceiling 3, the mutation remains in the stored
queue with the incremented counter.  If it has reached the ceiling, it is
excluded from the below-ceiling set: when that set is non-empty it
overwrites the queue (so the at-ceiling mutation is dropped), but when every
failing mutation is at the ceiling, the queue write is skipped and the
mutation remains stored with its pre-increment counter (it is not dropped).
The `hid` hypothesis says no successfully pushed operation shares the failed
operation's (best-effort unique) id. -/
theorem performSync_retry_bookkeeping
    (g : Nat → String) (now : Nat) (serverTodos : List TodoItem)
    (push : PendingSyncOperation → Bool) (localTodos : List TodoItem)
    (st : SyncState) (op : PendingSyncOperation)
    (hop : op ∈ st.pending) (hfail : push op = false)
    (hid : ∀ o ∈ st.pending, push o = true → o.id ≠ op.id) :
    { op with retryCount := op.retryCount + 1 } ∈
      (performSync g now (Except.ok serverTodos) push localTodos
        st).1.failedOperations ∧
    (op.retryCount + 1 < 3 →
      { op with retryCount := op.retryCount + 1 } ∈
        (performSync g now (Except.ok serverTodos) push localTodos
          st).2.1.pending) ∧
    (3 ≤ op.retryCount + 1 → (pushLoop push st.pending).2.1 ≠ [] →
      (performSync g now (Except.ok serverTodos) push localTodos
          st).2.1.pending = (pushLoop push st.pending).2.1 ∧
      { op with retryCount := op.retryCount + 1 } ∉
        (pushLoop push st.pending).2.1) ∧
    (3 ≤ op.retryCount + 1 → (pushLoop push st.pending).2.1 = [] →
      op ∈ (performSync g now (Except.ok serverTodos) push localTodos
        st).2.1.pending) := by
  have hfailedOps :
      (performSync g now (Except.ok serverTodos) push localTodos
        st).1.failedOperations = (pushLoop push st.pending).2.2 := rfl
  have hpend :
      (performSync g now (Except.ok serverTodos) push localTodos
        st).2.1.pending =
      if (pushLoop push st.pending).2.1.isEmpty then
        st.pending.filter (fun o =>
          !(((pushLoop push st.pending).1.map
              PendingSyncOperation.id).contains o.id))
      else (pushLoop push st.pending).2.1 := rfl
  have hmemAll : { op with retryCount := op.retryCount + 1 } ∈
      (pushLoop push st.pending).2.2 := by
    rw [pushLoop_failedAll]
    exact List.mem_map_of_mem _ (List.mem_filter.2 ⟨hop, by simp [hfail]⟩)
  refine ⟨by rw [hfailedOps]; exact hmemAll, ?_, ?_, ?_⟩
  · intro hlt
    have hmemBelow : { op with retryCount := op.retryCount + 1 } ∈
        (pushLoop push st.pending).2.1 := by
      rw [pushLoop_failedBelow]
      exact List.mem_filter.2 ⟨hmemAll, by simpa using hlt⟩
    rw [hpend, if_neg (by simp [List.isEmpty_iff,
      List.ne_nil_of_mem hmemBelow])]
    exact hmemBelow
  · intro hge hne
    constructor
    · rw [hpend, if_neg (by simp [List.isEmpty_iff, hne])]
    · rw [pushLoop_failedBelow]
      intro hmem
      have := (List.mem_filter.1 hmem).2
      simp at this
      omega
  · intro hge hnil
    rw [hpend, if_pos (by simp [List.isEmpty_iff, hnil])]
    refine List.mem_filter.2 ⟨hop, ?_⟩
    rw [pushLoop_synced]
    have hnotmem : op.id ∉
        (st.pending.filter (fun o => push o)).map PendingSyncOperation.id := by
      intro hmem
      rcases List.mem_map.1 hmem with ⟨o, ho, hEq⟩
      rcases List.mem_filter.1 ho with ⟨ho1, ho2⟩
      exact hid o ho1 ho2 hEq
    simpa using hnotmem

/-- Claim C5, witness: a first-time failure (counter 0 → 1) stays queued
with the incremented counter and is reported as failed. -/
theorem performSync_retry_witness :
    { opFresh with retryCount := opFresh.retryCount + 1 } ∈
      (performSync (fun _ => "c") 5 (Except.ok []) (fun _ => false) []
        stFresh).1.failedOperations ∧
    (opFresh.retryCount + 1 < 3 →
      { opFresh with retryCount := opFresh.retryCount + 1 } ∈
        (performSync (fun _ => "c") 5 (Except.ok []) (fun _ => false) []
          stFresh).2.1.pending) ∧
    (3 ≤ opFresh.retryCount + 1 →
      (pushLoop (fun _ => false) stFresh.pending).2.1 ≠ [] →
      (performSync (fun _ => "c") 5 (Except.ok []) (fun _ => false) []
          stFresh).2.1.pending =
        (pushLoop (fun _ => false) stFresh.pending).2.1 ∧
      { opFresh with retryCount := opFresh.retryCount + 1 } ∉
        (pushLoop (fun _ => false) stFresh.pending).2.1) ∧
    (3 ≤ opFresh.retryCount + 1 →
      (pushLoop (fun _ => false) stFresh.pending).2.1 = [] →
      opFresh ∈ (performSync (fun _ => "c") 5 (Except.ok []) (fun _ => false)
        [] stFresh).2.1.pending) :=
  performSync_retry_bookkeeping (fun _ => "c") 5 [] (fun _ => false) []
    stFresh opFresh (by decide) rfl (by decide)

/-- Claim C5, counterexample to the claim as stated: an operation failing at
counter 2 is reported as failed with counter 3 (the ceiling), but because no
failing operation is below the ceiling the queue overwrite is skipped: the
operation is NOT dropped from the stored queue — it remains with its old
counter 2. -/
theorem performSync_retry_ceiling_retained_cex :
    (performSync (fun _ => "c") 5 (Except.ok []) (fun _ => false) []
        stCeil).1.failedOperations = [{ opCeil with retryCount := 3 }] ∧
    (performSync (fun _ => "c") 5 (Except.ok []) (fun _ => false) []
        stCeil).2.1.pending = [opCeil] ∧
    opCeil.retryCount = 2 := by
  decide

/-! ### Claim C9: the end-to-end offline-create scenario -/

/-- Claim C9, counterexample to the claim as stated: in the offline-create
scenario the pass succeeds, empties the queue and reports the one synced
mutation, but the merged snapshot `performSync` returns carries the item
with `syncStatus = pending`, not `synced`. -/
theorem performSync_offline_create_pending_cex :
    (performSync (fun _ => "c") 5 (Except.ok []) (fun _ => true) [milkTodo]
        stMilk).1.success = true ∧
    (performSync (fun _ => "c") 5 (Except.ok []) (fun _ => true) [milkTodo]
        stMilk).2.1.pending = [] ∧
    (performSync (fun _ => "c") 5 (Except.ok []) (fun _ => true) [milkTodo]
        stMilk).1.syncedOperations = [opCreateMilk] ∧
    (performSync (fun _ => "c") 5 (Except.ok []) (fun _ => true) [milkTodo]
        stMilk).1.fetchedData =
      some [{ milkTodo with syncStatus := some SyncStatus.pending }] ∧
    { milkTodo with syncStatus := some SyncStatus.synced } ∉
      ((performSync (fun _ => "c") 5 (Except.ok []) (fun _ => true) [milkTodo]
        stMilk).1.fetchedData.getD []) := by
  decide

/-- Claim C9, as amended: in the offline-create scenario `performSync`
returns `success = true`, empties the stored queue, reports exactly the one
pushed mutation in `syncedOperations`, and returns the item marked
`pending` in its merged snapshot; the background-sync hook then re-marks
every merged item `synced` before updating the application's todo list, so
the updated list contains the item with `syncStatus = synced`. -/
theorem performSync_offline_create_scenario :
    (performSync (fun _ => "c") 5 (Except.ok []) (fun _ => true) [milkTodo]
        stMilk).1.success = true ∧
    (performSync (fun _ => "c") 5 (Except.ok []) (fun _ => true) [milkTodo]
        stMilk).2.1.pending = [] ∧
    (performSync (fun _ => "c") 5 (Except.ok []) (fun _ => true) [milkTodo]
        stMilk).1.syncedOperations = [opCreateMilk] ∧
    performActualSyncUpdate
        (performSync (fun _ => "c") 5 (Except.ok []) (fun _ => true)
          [milkTodo] stMilk).1 =
      some [{ milkTodo with syncStatus := some SyncStatus.synced }] := by
  decide

/-! ### Claim C3: re-running reconciliation -/

theorem mapGet_append {A B : List TodoItem} {i : Int} :
    mapGet (A ++ B) i =
      match mapGet B i with
      | some r => some r
      | none => mapGet A i := by
  induction A with
  | nil =>
    rw [List.nil_append]
    cases mapGet B i <;> rfl
  | cons t A' ih =>
    rw [List.cons_append, mapGet, ih]
    cases mapGet B i <;> rfl

/-- Items retained by the local-only loop have ids absent from the server
snapshot, and re-marking them `pending` is the identity. -/
theorem mem_localOnly {L R : List TodoItem} {t : TodoItem}
    (h : t ∈ localOnly L R) :
    (∀ s ∈ R, s.id ≠ t.id) ∧
    { t with syncStatus := some SyncStatus.pending } = t := by
  rcases List.mem_map.1 h with ⟨x, hx, rfl⟩
  rcases List.mem_filter.1 hx with ⟨hxL, hpred⟩
  constructor
  · intro s hs hEq
    have hany : R.any (fun s => s.id == x.id) = true :=
      List.any_eq_true.2 ⟨s, hs, by simp [show s.id = x.id from hEq]⟩
    rw [hany] at hpred
    simp at hpred
  · rfl

/-- In the output of a first reconciliation over a remote snapshot with
pairwise-distinct ids, the counterpart found for a server item is exactly
the merged item the first run produced for it. -/
theorem mapGet_reconciled {g : Nat → String} {n : Nat}
    {L R : List TodoItem} {s : TodoItem}
    (hnd : (R.map TodoItem.id).Nodup) (hs : s ∈ R) :
    mapGet (reconcileData g n L R).1 s.id = some ((reconcileItem L s).1) := by
  have hsplit : (reconcileData g n L R).1 =
      R.map (fun x => (reconcileItem L x).1) ++ localOnly L R := rfl
  rw [hsplit, mapGet_append]
  have hlo : mapGet (localOnly L R) s.id = none := by
    refine mapGet_eq_none ?_
    intro t ht hEq
    exact (mem_localOnly ht).1 s hs hEq.symm
  rw [hlo]
  exact mapGet_map (fun t => reconcileItem_fst_id L t) hnd hs

/-- The second run's per-item outcome in terms of the first run's: provided
no remote item is flagged `cached`, the merged item is reproduced, and a
conflict pair is re-emitted exactly where the first run emitted one (same
server data; the local data now carries the `conflict` status the first run
assigned). -/
theorem reconcileItem_second {g : Nat → String} {n : Nat}
    {L R : List TodoItem} (hnd : (R.map TodoItem.id).Nodup)
    (hc : ∀ x ∈ R, truthy x.cached = false) {s : TodoItem} (hs : s ∈ R) :
    reconcileItem (reconcileData g n L R).1 s =
      ((reconcileItem L s).1,
       ((reconcileItem L s).2).map
         (fun q =>
           ({ q.1 with syncStatus := some SyncStatus.conflict }, q.2))) := by
  have hget : mapGet (reconcileData g n L R).1 s.id =
      some ((reconcileItem L s).1) := mapGet_reconciled hnd hs
  conv_lhs => rw [reconcileItem]
  rw [hget]
  dsimp only
  cases hm : mapGet L s.id with
  | none =>
    have hitem : reconcileItem L s =
        ({ s with syncStatus := some SyncStatus.synced }, none) := by
      rw [reconcileItem, hm]
    rw [hitem]
    simp [hc s hs]
  | some l =>
    by_cases h1 : (truthy l.cached && truthyTs l.lastModified &&
        truthyTs s.lastModified) = true
    · by_cases h2 : l.lastModified.getD 0 > s.lastModified.getD 0
      · have hitem : reconcileItem L s =
            ({ l with syncStatus := some SyncStatus.conflict },
             some (l, s)) := by
          rw [reconcileItem, hm]; dsimp only; rw [if_pos h1, if_pos h2]
        rw [hitem]
        dsimp only
        rw [if_pos (by simpa using h1), if_pos (by simpa using h2)]
        rfl
      · have hitem : reconcileItem L s =
            ({ s with syncStatus := some SyncStatus.synced }, none) := by
          rw [reconcileItem, hm]; dsimp only; rw [if_pos h1, if_neg h2]
        rw [hitem]
        simp [hc s hs]
    · by_cases h3 : truthy l.cached = true
      · have hitem : reconcileItem L s =
            ({ l with syncStatus := some SyncStatus.pending }, none) := by
          rw [reconcileItem, hm]; dsimp only; rw [if_neg h1, if_pos h3]
        rw [hitem]
        dsimp only
        rw [if_neg (by simpa using h1), if_pos (by simpa using h3)]
        rfl
      · have hitem : reconcileItem L s =
            ({ s with syncStatus := some SyncStatus.synced }, none) := by
          rw [reconcileItem, hm]; dsimp only; rw [if_neg h1, if_neg h3]
        rw [hitem]
        simp [hc s hs]

theorem filterMap_eq_map_of_eq {α β γ : Type} (f1 : α → Option β)
    (f2 : α → Option γ) (h : β → γ) :
    ∀ (l : List α), (∀ a ∈ l, f2 a = (f1 a).map h) →
      l.filterMap f2 = (l.filterMap f1).map h := by
  intro l
  induction l with
  | nil => intro _; rfl
  | cons a as ih =>
    intro hp
    rw [List.filterMap_cons, List.filterMap_cons,
      hp a (List.mem_cons_self a as)]
    cases hfa : f1 a with
    | none => simp [ih (fun x hx => hp x (List.mem_cons_of_mem a hx))]
    | some b => simp [ih (fun x hx => hp x (List.mem_cons_of_mem a hx))]

/-- Feeding the first run's merged output back leaves the local-only items
unchanged. -/
theorem localOnly_second (g : Nat → String) (n : Nat) (L R : List TodoItem) :
    localOnly (reconcileData g n L R).1 R = localOnly L R := by
  have hsplit : (reconcileData g n L R).1 =
      R.map (fun x => (reconcileItem L x).1) ++ localOnly L R := rfl
  rw [hsplit, localOnly, List.filter_append]
  have h1 : (R.map (fun x => (reconcileItem L x).1)).filter
      (fun l => !(R.any (fun s => s.id == l.id))) = [] := by
    rw [List.filter_eq_nil_iff]
    intro t ht
    rcases List.mem_map.1 ht with ⟨x, hx, rfl⟩
    have hany : R.any (fun s => s.id == ((reconcileItem L x).1).id) = true :=
      List.any_eq_true.2 ⟨x, hx, by simp [reconcileItem_fst_id]⟩
    simp [hany]
  have h2 : (localOnly L R).filter
      (fun l => !(R.any (fun s => s.id == l.id))) = localOnly L R := by
    rw [List.filter_eq_self]
    intro t ht
    have hids := (mem_localOnly ht).1
    have hany : R.any (fun s => s.id == t.id) = false := by
      rw [List.any_eq_false]
      intro s hs
      simp [hids s hs]
    simp [hany]
  rw [h1, h2, List.nil_append]
  have h3 : ∀ t ∈ localOnly L R,
      ({ t with syncStatus := some SyncStatus.pending } : TodoItem) = id t :=
    fun t ht => (mem_localOnly ht).2
  rw [List.map_congr_left h3, List.map_id]

/-- The second run's conflict pairs are the first run's, with the local side
now carrying the `conflict` status. -/
theorem conflictPairs_second (g : Nat → String) (n : Nat)
    (L R : List TodoItem) (hnd : (R.map TodoItem.id).Nodup)
    (hc : ∀ x ∈ R, truthy x.cached = false) :
    conflictPairs (reconcileData g n L R).1 R =
      (conflictPairs L R).map
        (fun q =>
          ({ q.1 with syncStatus := some SyncStatus.conflict }, q.2)) := by
  rw [conflictPairs, conflictPairs]
  exact filterMap_eq_map_of_eq _ _ _ R
    (fun s hs => by rw [reconcileItem_second hnd hc hs])

/-- Claim C3, as amended: over snapshots whose remote ids are pairwise
distinct and none of whose remote items carries a truthy `cached` flag,
feeding the merged output back as the local snapshot against the same remote
snapshot reproduces the same merged snapshot; the second run, however, does
not emit zero conflict records — it re-emits one record per still-conflicting
id, with the same entity ids and the same server data as the first run's
records. -/
theorem reconcile_idempotent_on_uncached_remote
    (g1 g2 : Nat → String) (n1 n2 : Nat) (L R : List TodoItem)
    (hnd : (R.map TodoItem.id).Nodup)
    (hc : ∀ x ∈ R, truthy x.cached = false) :
    (reconcileData g2 n2 (reconcileData g1 n1 L R).1 R).1 =
      (reconcileData g1 n1 L R).1 ∧
    (reconcileData g2 n2 (reconcileData g1 n1 L R).1 R).2.length =
      (reconcileData g1 n1 L R).2.length ∧
    (reconcileData g2 n2 (reconcileData g1 n1 L R).1 R).2.map
        SyncConflict.entityId =
      (reconcileData g1 n1 L R).2.map SyncConflict.entityId ∧
    (reconcileData g2 n2 (reconcileData g1 n1 L R).1 R).2.map
        SyncConflict.serverData =
      (reconcileData g1 n1 L R).2.map SyncConflict.serverData := by
  have hpairs := conflictPairs_second g1 n1 L R hnd hc
  have hsplit2 : (reconcileData g2 n2 (reconcileData g1 n1 L R).1 R).1 =
      R.map (fun x => (reconcileItem (reconcileData g1 n1 L R).1 x).1) ++
        localOnly (reconcileData g1 n1 L R).1 R := rfl
  have hcf1 : (reconcileData g1 n1 L R).2 =
      mkConflicts g1 n1 0 (conflictPairs L R) := rfl
  have hcf2 : (reconcileData g2 n2 (reconcileData g1 n1 L R).1 R).2 =
      mkConflicts g2 n2 0
        (conflictPairs (reconcileData g1 n1 L R).1 R) := rfl
  refine ⟨?_, ?_, ?_, ?_⟩
  · rw [hsplit2, localOnly_second g1 n1 L R]
    have hmap : R.map
        (fun x => (reconcileItem (reconcileData g1 n1 L R).1 x).1) =
        R.map (fun x => (reconcileItem L x).1) :=
      List.map_congr_left
        (fun s hs => by rw [reconcileItem_second hnd hc hs])
    rw [hmap]
    rfl
  · rw [hcf1, hcf2, mkConflicts_length, mkConflicts_length, hpairs,
      List.length_map]
  · rw [hcf1, hcf2, mkConflicts_map_entityId, mkConflicts_map_entityId,
      hpairs, List.map_map]
    rfl
  · rw [hcf1, hcf2, mkConflicts_map_serverData, mkConflicts_map_serverData,
      hpairs, List.map_map]
    rfl

/-- Claim C3, witness: the 100-vs-50 conflict scenario run twice — the
merged snapshot is reproduced and the conflict is re-emitted with the same
entity id and server data. -/
theorem reconcile_idempotent_witness :
    (reconcileData (fun _ => "d") 8
        (reconcileData (fun _ => "c") 7 [itemL100] [itemR50]).1 [itemR50]).1 =
      (reconcileData (fun _ => "c") 7 [itemL100] [itemR50]).1 ∧
    (reconcileData (fun _ => "d") 8
        (reconcileData (fun _ => "c") 7 [itemL100] [itemR50]).1
        [itemR50]).2.length =
      (reconcileData (fun _ => "c") 7 [itemL100] [itemR50]).2.length ∧
    (reconcileData (fun _ => "d") 8
        (reconcileData (fun _ => "c") 7 [itemL100] [itemR50]).1
        [itemR50]).2.map SyncConflict.entityId =
      (reconcileData (fun _ => "c") 7 [itemL100] [itemR50]).2.map
        SyncConflict.entityId ∧
    (reconcileData (fun _ => "d") 8
        (reconcileData (fun _ => "c") 7 [itemL100] [itemR50]).1
        [itemR50]).2.map SyncConflict.serverData =
      (reconcileData (fun _ => "c") 7 [itemL100] [itemR50]).2.map
        SyncConflict.serverData :=
  reconcile_idempotent_on_uncached_remote (fun _ => "c") (fun _ => "d") 7 8
    [itemL100] [itemR50] (by decide) (by decide)

/-- Claim C3, counterexample to the claim as stated: (i) after the 100-vs-50
conflict run, running reconciliation again on the merged output emits one
further conflict record, not zero; (ii) with a remote item flagged
`cached = true`, even the merged snapshot is not reproduced — the item
adopted as `synced` by the first run is demoted to `pending` by the second.
-/
theorem reconcile_idempotent_cex :
    (reconcileData (fun _ => "c") 7 [itemL100] [itemR50]).2.length = 1 ∧
    (reconcileData (fun _ => "d") 8
        (reconcileData (fun _ => "c") 7 [itemL100] [itemR50]).1
        [itemR50]).2.length = 1 ∧
    (reconcileData (fun _ => "d") 8
        (reconcileData (fun _ => "c") 7 [] [itemSrvCached]).1
        [itemSrvCached]).1 ≠
      (reconcileData (fun _ => "c") 7 [] [itemSrvCached]).1 := by
  decide

/-! ### Claim C4: at most one pending mutation per (entityId, kind) pair -/

theorem filter_filter_not_nil {α : Type} (p : α → Bool) (l : List α) :
    (l.filter (fun a => !(p a))).filter p = [] := by
  induction l with
  | nil => rfl
  | cons a as ih =>
    by_cases hpa : p a = true
    · simp [hpa, ih]
    · have hpa' : p a = false := by simpa using hpa
      simp [hpa', ih]

theorem filter_keep_of_disjoint {α : Type} (p q : α → Bool)
    (h : ∀ a, q a = true → p a = false) (l : List α) :
    (l.filter (fun a => !(p a))).filter q = l.filter q := by
  induction l with
  | nil => rfl
  | cons a as ih =>
    by_cases hpa : p a = true
    · have hqa : q a = false := by
        cases hqa : q a with
        | false => rfl
        | true => exact absurd (h a hqa) (by simp [hpa])
      simp [hpa, hqa, ih]
    · have hpa' : p a = false := by simpa using hpa
      by_cases hqa : q a = true
      · simp [hpa', hqa, ih]
      · have hqa' : q a = false := by simpa using hqa
        simp [hpa', hqa', ih]

/-- Enqueuing leaves exactly the new operation under its own
(entityId, kind) pair. -/
theorem addPending_filter_same (opId : String) (now : Nat)
    (ty : SyncOperationType) (e : Int) (d : PartialTodoItem)
    (ops : List PendingSyncOperation) :
    (addPendingOperation opId now ty e d ops).filter
        (fun op => op.entityId == e && op.type == ty) =
      [{ id := opId, type := ty, entityType := "todo", entityId := e,
         data := d, timestamp := now, retryCount := 0 }] := by
  rw [addPendingOperation]
  rw [List.filter_append, filter_filter_not_nil]
  simp

/-- Enqueuing does not disturb the stored operations of any other
(entityId, kind) pair. -/
theorem addPending_filter_other (opId : String) (now : Nat)
    (ty : SyncOperationType) (e : Int) (d : PartialTodoItem)
    (ops : List PendingSyncOperation) (e' : Int) (ty' : SyncOperationType)
    (h : ¬(e' = e ∧ ty' = ty)) :
    (addPendingOperation opId now ty e d ops).filter
        (fun op => op.entityId == e' && op.type == ty') =
      ops.filter (fun op => op.entityId == e' && op.type == ty') := by
  rw [addPendingOperation]
  rw [List.filter_append]
  have hdisj : ∀ (a : PendingSyncOperation),
      (a.entityId == e' && a.type == ty') = true →
      (a.entityId == e && a.type == ty) = false := by
    intro a ha
    simp only [Bool.and_eq_true, beq_iff_eq] at ha
    by_cases hae : a.entityId = e
    · have : a.type ≠ ty := by
        intro haty
        exact h ⟨by rw [← ha.1, hae], by rw [← ha.2, haty]⟩
      simp [this]
    · simp [hae]
  rw [filter_keep_of_disjoint _ _ hdisj]
  have hnew : ((e == e') && (ty == ty')) = false := by
    by_cases hee : e = e'
    · have hty : ty ≠ ty' := fun hty => h ⟨hee.symm, hty.symm⟩
      simp [hee, hty]
    · simp [hee]
  simp [hnew]

theorem addPending_preserves (opId : String) (now : Nat)
    (ty : SyncOperationType) (e : Int) (d : PartialTodoItem)
    (ops : List PendingSyncOperation) (h : atMostOnePerPair ops) :
    atMostOnePerPair (addPendingOperation opId now ty e d ops) := by
  intro e' ty'
  by_cases hsame : e' = e ∧ ty' = ty
  · rcases hsame with ⟨rfl, rfl⟩
    rw [addPending_filter_same]
    simp
  · rw [addPending_filter_other opId now ty e d ops e' ty' hsame]
    exact h e' ty'

theorem enqueueAll_preserves :
    ∀ (reqs : List (String × Nat × SyncOperationType × Int × PartialTodoItem))
      (ops : List PendingSyncOperation), atMostOnePerPair ops →
      atMostOnePerPair (enqueueAll reqs ops) := by
  intro reqs
  induction reqs with
  | nil => intro ops h; exact h
  | cons r rs ih =>
    intro ops h
    rw [enqueueAll, List.foldl_cons]
    exact ih _ (addPending_preserves _ _ _ _ _ _ h)

/-- Claim C4: enqueuing a pending mutation evicts any stored mutation with
the same (entityId, kind) pair and appends the new one: after the call
exactly the new operation is stored under that pair, other pairs are
untouched, the at-most-one-per-pair invariant is preserved by one enqueue
and by any sequence of enqueues, and two `update` enqueues for the same
entity id leave exactly the second operation. -/
theorem addPendingOperation_at_most_one_per_pair
    (opId : String) (now : Nat) (ty : SyncOperationType) (e : Int)
    (d : PartialTodoItem) (ops : List PendingSyncOperation) :
    (addPendingOperation opId now ty e d ops).filter
        (fun op => op.entityId == e && op.type == ty) =
      [{ id := opId, type := ty, entityType := "todo", entityId := e,
         data := d, timestamp := now, retryCount := 0 }] ∧
    (∀ (e' : Int) (ty' : SyncOperationType), ¬(e' = e ∧ ty' = ty) →
      (addPendingOperation opId now ty e d ops).filter
          (fun op => op.entityId == e' && op.type == ty') =
        ops.filter (fun op => op.entityId == e' && op.type == ty')) ∧
    (atMostOnePerPair ops →
      atMostOnePerPair (addPendingOperation opId now ty e d ops)) ∧
    (∀ (reqs : List (String × Nat × SyncOperationType × Int ×
        PartialTodoItem)),
      atMostOnePerPair ops → atMostOnePerPair (enqueueAll reqs ops)) ∧
    (∀ (opId2 : String) (now2 : Nat) (d2 : PartialTodoItem),
      (addPendingOperation opId2 now2 SyncOperationType.update e d2
          (addPendingOperation opId now SyncOperationType.update e d
            ops)).filter
          (fun op => op.entityId == e &&
            op.type == SyncOperationType.update) =
        [{ id := opId2, type := SyncOperationType.update,
           entityType := "todo", entityId := e, data := d2,
           timestamp := now2, retryCount := 0 }]) := by
  refine ⟨addPending_filter_same opId now ty e d ops, ?_, ?_, ?_, ?_⟩
  · intro e' ty' h
    exact addPending_filter_other opId now ty e d ops e' ty' h
  · intro h
    exact addPending_preserves opId now ty e d ops h
  · intro reqs h
    exact enqueueAll_preserves reqs ops h
  · intro opId2 now2 d2
    exact addPending_filter_same opId2 now2 SyncOperationType.update e d2 _

/-- Claim C4, witness: two `update` enqueues for entity 7 starting from the
empty queue — exactly the second operation remains under the pair, and the
invariant holds. -/
theorem addPendingOperation_at_most_one_witness :
    (addPendingOperation "u1" 1 SyncOperationType.update 7 {} []).filter
        (fun op => op.entityId == 7 &&
          op.type == SyncOperationType.update) =
      [{ id := "u1", type := SyncOperationType.update, entityType := "todo",
         entityId := 7, data := {}, timestamp := 1, retryCount := 0 }] ∧
    atMostOnePerPair
      (enqueueAll [("u2", 2, SyncOperationType.update, 7, {})]
        (addPendingOperation "u1" 1 SyncOperationType.update 7 {} [])) ∧
    (addPendingOperation "u2" 2 SyncOperationType.update 7 {}
        (addPendingOperation "u1" 1 SyncOperationType.update 7 {} [])).filter
        (fun op => op.entityId == 7 &&
          op.type == SyncOperationType.update) =
      [{ id := "u2", type := SyncOperationType.update, entityType := "todo",
         entityId := 7, data := {}, timestamp := 2, retryCount := 0 }] := by
  have h := addPendingOperation_at_most_one_per_pair "u1" 1
    SyncOperationType.update 7 {} []
  have hbase : atMostOnePerPair
      (addPendingOperation "u1" 1 SyncOperationType.update 7 {} []) :=
    h.2.2.1 (fun e ty => by simp)
  exact ⟨h.1,
    enqueueAll_preserves [("u2", 2, SyncOperationType.update, 7, {})] _ hbase,
    h.2.2.2.2 "u2" 2 {}⟩

/-! ### Claim C8: tolerance of the storage-read functions -/

/-- Claim C8, as amended: with the storage key absent — or holding the empty
string, which is falsy — both read functions return the empty collection
without raising; but when the stored content is a non-empty string that
`JSON.parse` rejects, the parse error propagates out of the read (there is
no surrounding catch), rather than an empty collection being returned. -/
theorem storage_reads_tolerate_absent
    (pOps : String → Except String (List PendingSyncOperation))
    (pCfl : String → Except String (List SyncConflict)) :
    getPendingOperations pOps none = Except.ok [] ∧
    getPendingOperations pOps (some "") = Except.ok [] ∧
    getSyncConflicts pCfl none = Except.ok [] ∧
    getSyncConflicts pCfl (some "") = Except.ok [] ∧
    (∀ (s e : String), s ≠ "" → pOps s = Except.error e →
      getPendingOperations pOps (some s) = Except.error e) ∧
    (∀ (s e : String), s ≠ "" → pCfl s = Except.error e →
      getSyncConflicts pCfl (some s) = Except.error e) := by
  refine ⟨rfl, rfl, rfl, rfl, ?_, ?_⟩
  · intro s e hs hp
    simp [getPendingOperations, hs, hp]
  · intro s e hs hp
    simp [getSyncConflicts, hs, hp]

/-- Claim C8, witness: absent keys give empty collections; the malformed
content `"oops"` (not a JSON text, so `JSON.parse` throws) makes the parse
error propagate. -/
theorem storage_reads_witness :
    getPendingOperations (jsonParseStub PendingSyncOperation) none =
      Except.ok [] ∧
    getSyncConflicts (jsonParseStub SyncConflict) none = Except.ok [] ∧
    getPendingOperations (jsonParseStub PendingSyncOperation)
        (some "oops") =
      Except.error "SyntaxError: Unexpected token" ∧
    getSyncConflicts (jsonParseStub SyncConflict) (some "oops") =
      Except.error "SyntaxError: Unexpected token" := by
  have h := storage_reads_tolerate_absent
    (jsonParseStub PendingSyncOperation) (jsonParseStub SyncConflict)
  exact ⟨h.1, h.2.2.1,
    h.2.2.2.2.1 "oops" "SyntaxError: Unexpected token" (by decide) rfl,
    h.2.2.2.2.2 "oops" "SyntaxError: Unexpected token" (by decide) rfl⟩

/-- Claim C8, counterexample to the claim as stated: on malformed content
(`"oops"`, which `JSON.parse` rejects) both read functions propagate the
error instead of returning an empty collection. -/
theorem storage_reads_malformed_cex :
    getPendingOperations (jsonParseStub PendingSyncOperation)
        (some "oops") =
      Except.error "SyntaxError: Unexpected token" ∧
    (getPendingOperations (jsonParseStub PendingSyncOperation)
        (some "oops")).isOk = false ∧
    (getSyncConflicts (jsonParseStub SyncConflict) (some "oops")).isOk =
      false := by
  exact ⟨rfl, rfl, rfl⟩
